import Mathlib

/-!
Verification development for the NN-XOR timeline engine.

Shallow embedding of the core simulation code (`src/core.py`,
`src/models.py`, `src/main.py`, `src/constants.py`) over exact rationals.
NumPy's PCG64 generator is external library code; it is modelled as an
abstract raw stream `g : Nat -> Rat` derived from the seed, with each
library draw interpreting raw values at a fixed, unconditionally advancing
position -- exactly mirroring the call sites in `feedFromSeed` and
`fillModel`.  Transcendental activation/loss bodies (sigmoid, tanh, log)
are likewise library-level numerics and are abstracted into a `FunLib`
table keyed by the registered function names, matching the source's
name-based lookup through `FunctionsListsByType`.
-/

namespace NNXOR

/-- `constants.py`: `EPSILON = 1e-7`. -/
def EPSILON : ℚ := 1 / 10000000

/-- `constants.py`: `LEAKY_eps = 0.1`. -/
def LEAKY_eps : ℚ := 1 / 10

/-- `constants.py`: `MAX_LEN_FILENAME_JSON = 50`. -/
def MAX_LEN_FILENAME_JSON : Nat := 50

/-- Binary maximum (`max` / `np.maximum` on scalars). -/
def npmax (a b : ℚ) : ℚ := if a ≤ b then b else a

/-- Binary minimum (`min` / `np.minimum` on scalars). -/
def npmin (a b : ℚ) : ℚ := if a ≤ b then a else b

/-- `np.clip(x, lo, hi)` = `minimum(maximum(x, lo), hi)`, entrywise on scalars. -/
def npclip (x lo hi : ℚ) : ℚ := npmin (npmax x lo) hi

/-- `astype(int)` on a float: truncation toward zero. -/
def truncInt (q : ℚ) : ℤ := if 0 ≤ q then ⌊q⌋ else -⌊-q⌋

/-- `constants.py`: `X_BATCH_4`, the fixed exhaustive 4-row input batch. -/
def X_BATCH_4 : Fin 4 → Fin 2 → ℚ :=
  fun r c => if r.val / 2 = 1 ∧ c.val = 0 then 1 else if r.val % 2 = 1 ∧ c.val = 1 then 1 else 0

/-- `constants.py`: `Y_XOR_TRUE_4`, XOR truth labels as a 4x1 column. -/
def Y_XOR_TRUE_4 : Fin 4 → Fin 1 → ℚ :=
  fun r _ => if r.val = 1 ∨ r.val = 2 then 1 else 0

/-- `constants.py`: `CHOICES_LISTS.BATCH_SIZE`. -/
def BATCH_SIZE_CHOICES : List Nat := [1, 2, 4, 10]

/-- `constants.py`: `CHOICES_LISTS.EPOCH_SIZE`. -/
def EPOCH_SIZE_CHOICES : List Nat := [100, 200, 500, 1000, 2000, 5000]

/-- `constants.py`: `CHOICES_LISTS.CYCLES_PER_EPOCH`. -/
def CYCLES_PER_EPOCH_CHOICES : List Nat := [1, 2, 5, 10]

/-! ## Function registry (`core.py`, `FunctionsListsByType`)

The source scans `Functions.__dict__` in class-definition order and
partitions by `fType()` flags.  The table below lists, in source order,
each function class with its (hidden-eligible, output-eligible,
loss-eligible) flags, exactly as returned by the `fType` methods. -/

structure FuncEntry where
  name : String
  hiddenF : Bool
  outputF : Bool
  lossF : Bool
deriving DecidableEq

/-- Class-definition order and `fType` flags of `core.py`'s `Functions` members. -/
def funcTable : List FuncEntry :=
  [ ⟨"sigmoid", true, true, false⟩
  , ⟨"ReLU", true, true, false⟩
  , ⟨"LeakyReLU", true, false, false⟩
  , ⟨"tanh", true, true, false⟩
  , ⟨"linear", true, true, false⟩
  , ⟨"BinaryStop", false, true, false⟩
  , ⟨"LCE_Loss", false, false, true⟩
  , ⟨"Hinge_Loss", false, false, true⟩
  , ⟨"Squared_Hinge_Loss", false, false, true⟩
  , ⟨"Hinge_Loss_0_1", false, false, true⟩
  , ⟨"Squared_Hinge_Loss_0_1", false, false, true⟩ ]

/-- `FunctionsListsByType.HiddenLayer` key list (insertion order). -/
def hiddenLayerNames : List String := (funcTable.filter (·.hiddenF)).map (·.name)

/-- `FunctionsListsByType.OutputLayer` key list (insertion order). -/
def outputLayerNames : List String := (funcTable.filter (·.outputF)).map (·.name)

/-- `FunctionsListsByType.LossFunction` key list (insertion order). -/
def lossFunctionNames : List String := (funcTable.filter (·.lossF)).map (·.name)

/-- Numeric bodies of the registered functions, keyed by registered name:
`actV name` = `value` composed with the layer input, `actD name` =
`derivative(a)`, `lossV name a y` = per-sample `value()`, `lossD name a y`
= per-sample `derivative()`.  The transcendental bodies live in library
code (`np.exp`, `np.log`, `np.tanh`); the engine only ever uses them
through this name-indexed interface. -/
structure FunLib where
  actV : String → ℚ → ℚ
  actD : String → ℚ → ℚ
  lossV : String → ℚ → ℚ → ℚ
  lossD : String → ℚ → ℚ → ℚ

/-! ## `core.py` clipping paths named by claim C6

`Functions.sigmoid.derivative` and `Functions.LCE_Loss.__init__` clip via
`a.clip(eps, 1-eps)` inside a `try`, falling back for plain scalars
(`AttributeError`) to `min(a, max(a, 0 + EPSILON), 1 - EPSILON)`. -/

/-- Array path of `sigmoid.derivative`: `a.clip(EPSILON, 1-EPSILON)` then `a*(1-a)`. -/
def sigmoid_derivative_array (a : ℚ) : ℚ :=
  let c := npclip a EPSILON (1 - EPSILON)
  c * (1 - c)

/-- Scalar fallback of `sigmoid.derivative`:
`a = min(a, max(a, 0 + EPSILON), 1 - EPSILON)` then `a*(1-a)`. -/
def sigmoid_derivative_scalar (a : ℚ) : ℚ :=
  let c := npmin a (npmin (npmax a EPSILON) (1 - EPSILON))
  c * (1 - c)

/-- Array path of `LCE_Loss.__init__` clipping of the predictions. -/
def lce_clip_array (a : ℚ) : ℚ := npclip a EPSILON (1 - EPSILON)

/-- Scalar fallback of `LCE_Loss.__init__`:
`self._a = min(a, max(a, 0 + EPSILON), 1 - EPSILON)`. -/
def lce_clip_scalar (a : ℚ) : ℚ := npmin a (npmin (npmax a EPSILON) (1 - EPSILON))

/-! ## RNG model

Each `numpy` draw call is interpreted from raw rationals at a fixed
position of the abstract stream.  `fract q` stands for a raw uniform in
`[0,1)`. -/

/-- Fractional part, the model of one raw `[0,1)` uniform. -/
def fract (q : ℚ) : ℚ := q - ⌊q⌋

/-- `rng.choice(lst)`: one draw selecting an element of `lst`. -/
def rngChoice {α : Type} [Inhabited α] (lst : List α) (q : ℚ) : α :=
  lst.getD (⌊q⌋.natAbs % lst.length) default

/-- `rng.integers(lo, hi)` (half-open): one draw in `[lo, hi)`. -/
def rngIntegers (lo hi : ℤ) (q : ℚ) : ℤ := lo + ⌊q⌋.natAbs % (hi - lo).toNat

/-- `rng.integers(lo, hi, endpoint=True)`: one draw in `[lo, hi]`. -/
def rngIntegersIncl (lo hi : ℤ) (q : ℚ) : ℤ := lo + ⌊q⌋.natAbs % (hi - lo + 1).toNat

/-- `rng.random()` then `round(r * 0.98 + 0.01, 2)`. -/
def rngLearningRate (q : ℚ) : ℚ := round ((fract q * (98/100) + 1/100) * 100) / 100

/-- `rng.uniform(lo, hi)`: one raw draw scaled into `[lo, hi)`. -/
def rngUniform (lo hi : ℚ) (q : ℚ) : ℚ := lo + fract q * (hi - lo)

/-- `rng.dirichlet((1,1,1,1))`: four raws normalised into a probability
vector (the library contract: nonnegative entries summing to 1). -/
def rngDirichlet4 (g : Nat → ℚ) (p : Nat) : Fin 4 → ℚ :=
  let s := |g p| + |g (p+1)| + |g (p+2)| + |g (p+3)|
  if s = 0 then fun _ => 1/4 else fun i => |g (p + i.val)| / s

theorem rngDirichlet4_nonneg (g : Nat → ℚ) (p : Nat) (i : Fin 4) :
    0 ≤ rngDirichlet4 g p i := by
  unfold rngDirichlet4
  by_cases h : |g p| + |g (p+1)| + |g (p+2)| + |g (p+3)| = 0
  · simp [h]
  · simp only [h, if_false]
    have hpos : 0 < |g p| + |g (p+1)| + |g (p+2)| + |g (p+3)| := by
      rcases lt_or_eq_of_le (by positivity :
        (0:ℚ) ≤ |g p| + |g (p+1)| + |g (p+2)| + |g (p+3)|) with h' | h'
      · exact h'
      · exact absurd h'.symm h
    exact div_nonneg (abs_nonneg _) hpos.le

theorem rngDirichlet4_sum (g : Nat → ℚ) (p : Nat) :
    rngDirichlet4 g p 0 + rngDirichlet4 g p 1 + rngDirichlet4 g p 2 +
      rngDirichlet4 g p 3 = 1 := by
  unfold rngDirichlet4
  by_cases h : |g p| + |g (p+1)| + |g (p+2)| + |g (p+3)| = 0
  · norm_num [h]
  · simp only [h, if_false, Fin.isValue]
    have h0 : ((0 : Fin 4) : ℕ) = 0 := rfl
    have h1 : ((1 : Fin 4) : ℕ) = 1 := rfl
    have h2 : ((2 : Fin 4) : ℕ) = 2 := rfl
    have h3 : ((3 : Fin 4) : ℕ) = 3 := rfl
    rw [h0, h1, h2, h3]
    field_simp

/-! ## `XOR_Slice` (`models.py`)

One Turning Point.  Field names follow `XOR_Slice.ColumnsMap`; the
matrices keep the source shapes (w1: 3x2 with bias row 2, w2: 3x1). -/

structure XOR_Slice where
  index : ℤ
  seedTP : ℤ
  batch_size : Nat
  epoch_size : Nat
  cyclesPerOneStepFwdOfEpoch : Nat
  learning_rate : ℚ
  minRange : ℤ
  maxRange : ℤ
  activation1 : String
  activation2 : String
  loss : String
  xPercents : Fin 4 → ℤ
  yParam : Fin 4 → Fin 1 → ℚ
  xHits : Fin 4 → ℤ
  w1 : Fin 3 → Fin 2 → ℚ
  w1_lock : Fin 3 → Fin 2 → ℚ
  w2 : Fin 3 → Fin 1 → ℚ
  w2_lock : Fin 3 → Fin 1 → ℚ
  z1 : Fin 4 → Fin 2 → ℚ
  a1 : Fin 4 → Fin 2 → ℚ
  z2 : Fin 4 → Fin 1 → ℚ
  y_aka_a2 : Fin 4 → Fin 1 → ℚ
  lossPerX : Fin 4 → Fin 1 → ℚ
  lossAvg : ℚ
deriving DecidableEq

/-- The set of lockable configuration columns passed to `feedFromSeed`
(`setColumnsLocked`).  The UI builds it from exactly eight lock toggles
(`control_panel.py`, `lstLLB.append` calls); the clip interval is keyed by
`ColumnsMap.minRange` alone -- `feedFromSeed` tests only these eight
memberships. -/
structure LockSet where
  batch_size : Bool
  epoch_size : Bool
  cyclesPerOneStepFwdOfEpoch : Bool
  learning_rate : Bool
  minRange : Bool
  activation1 : Bool
  activation2 : Bool
  loss : Bool
deriving DecidableEq

/-- The empty lock set: every configuration column unlocked. -/
def LockSet.none : LockSet := ⟨false, false, false, false, false, false, false, false⟩

/-- `XOR_Slice.compute_z_a_loss`: recompute z1/a1/z2/a2/lossPerX/lossAvg
against the fixed 4-row batch `X_BATCH_4` and the slice's own `yParam`. -/
def compute_z_a_loss (lib : FunLib) (s : XOR_Slice) : XOR_Slice :=
  let z1 : Fin 4 → Fin 2 → ℚ := fun r j =>
    X_BATCH_4 r 0 * s.w1 0 j + X_BATCH_4 r 1 * s.w1 1 j + s.w1 2 j
  let a1 : Fin 4 → Fin 2 → ℚ := fun r j => lib.actV s.activation1 (z1 r j)
  let z2 : Fin 4 → Fin 1 → ℚ := fun r k =>
    a1 r 0 * s.w2 0 k + a1 r 1 * s.w2 1 k + s.w2 2 k
  let a2 : Fin 4 → Fin 1 → ℚ := fun r k => lib.actV s.activation2 (z2 r k)
  let lossPerX : Fin 4 → Fin 1 → ℚ := fun r k => lib.lossV s.loss (a2 r k) (s.yParam r k)
  { s with
    z1 := z1, a1 := a1, z2 := z2, y_aka_a2 := a2, lossPerX := lossPerX,
    lossAvg := (lossPerX 0 0 + lossPerX 1 0 + lossPerX 2 0 + lossPerX 3 0) / 4 }

/-- `XOR_Slice.feedFromSeed`, also returning the number of RNG draws
consumed from the raw stream `g` (the stream numpy derives from the seed).
Every draw advances the stream unconditionally; a lock only gates the
assignment.  At `index == 0` the Dirichlet split (4 raws), the w1 uniforms
(6 raws, row-major) and the w2 uniforms (3 raws) follow the nine
configuration draws. -/
def feedFromSeedPos (lib : FunLib) (g : Nat → ℚ) (seed : ℤ) (locked : LockSet)
    (s : XOR_Slice) : XOR_Slice × Nat :=
  let batchC := rngChoice BATCH_SIZE_CHOICES (g 0)
  let epochC := rngChoice EPOCH_SIZE_CHOICES (g 1)
  let cyclesC := rngChoice CYCLES_PER_EPOCH_CHOICES (g 2)
  let lrC := rngLearningRate (g 3)
  let minC := rngIntegers (-20) 20 (g 4)
  let maxC := rngIntegersIncl (minC + 1) 20 (g 5)
  let act1C := rngChoice hiddenLayerNames (g 6)
  let act2C := rngChoice outputLayerNames (g 7)
  let lossC := rngChoice lossFunctionNames (g 8)
  let batch' := if locked.batch_size then s.batch_size else batchC
  let epoch' := if locked.epoch_size then s.epoch_size else epochC
  let cycles' := if locked.cyclesPerOneStepFwdOfEpoch
                 then s.cyclesPerOneStepFwdOfEpoch else cyclesC
  let lr' := if locked.learning_rate then s.learning_rate else lrC
  let min' := if locked.minRange then s.minRange else minC
  let max' := if locked.minRange then s.maxRange else maxC
  let act1' := if locked.activation1 then s.activation1 else act1C
  let act2' := if locked.activation2 then s.activation2 else act2C
  let loss' := if locked.loss then s.loss else lossC
  let base : XOR_Slice :=
    { s with
      seedTP := seed, batch_size := batch', epoch_size := epoch',
      cyclesPerOneStepFwdOfEpoch := cycles', learning_rate := lr',
      minRange := min', maxRange := max',
      activation1 := act1', activation2 := act2', loss := loss' }
  if s.index = 0 then
    let d := rngDirichlet4 g 9
    let pc0 := truncInt (d 0 * 100)
    let pc1 := truncInt (d 1 * 100)
    let pc2 := truncInt (d 2 * 100)
    let pcArr : Fin 4 → ℤ := fun i =>
      if i.val = 0 then pc0 else if i.val = 1 then pc1
      else if i.val = 2 then pc2 else 100 - (pc0 + pc1 + pc2)
    let w1' : Fin 3 → Fin 2 → ℚ := fun i j =>
      s.w1 i j * s.w1_lock i j +
        rngUniform (min' : ℚ) (max' : ℚ) (g (13 + (i.val * 2 + j.val))) * (1 - s.w1_lock i j)
    let w2' : Fin 3 → Fin 1 → ℚ := fun i k =>
      s.w2 i k * s.w2_lock i k +
        rngUniform (min' : ℚ) (max' : ℚ) (g (19 + i.val)) * (1 - s.w2_lock i k)
    ( compute_z_a_loss lib
        { base with
          xPercents := pcArr, yParam := Y_XOR_TRUE_4, xHits := fun _ => 0,
          w1 := w1', w2 := w2' }
    , 22 )
  else
    ( compute_z_a_loss lib
        { base with
          w1 := fun i j => npclip (s.w1 i j) (min' : ℚ) (max' : ℚ),
          w2 := fun i k => npclip (s.w2 i k) (min' : ℚ) (max' : ℚ) }
    , 9 )

/-- `XOR_Slice.feedFromSeed`: the regenerated slice. -/
def feedFromSeed (lib : FunLib) (g : Nat → ℚ) (seed : ℤ) (locked : LockSet)
    (s : XOR_Slice) : XOR_Slice :=
  (feedFromSeedPos lib g seed locked s).1

/-! ## Propagation engine (`core.py`, `XOR_forward_prop` / `XOR_back_prop`)

A mini-batch is the list of sampled class indices; its rows are looked up
in `X_BATCH_4` / `yParam`.  Activations are applied through their `value`
and `derivative(a)` bodies taken from the `FunLib` table. -/

/-- `XOR_forward_prop`: returns (A1, A2) row lists for a batch `x`. -/
def XOR_forward_prop (x : List (Fin 2 → ℚ)) (w1 : Fin 3 → Fin 2 → ℚ)
    (act1V : ℚ → ℚ) (w2 : Fin 3 → Fin 1 → ℚ) (act2V : ℚ → ℚ) :
    List (Fin 2 → ℚ) × List (Fin 1 → ℚ) :=
  let a1 := x.map (fun r j => act1V (r 0 * w1 0 j + r 1 * w1 1 j + w1 2 j))
  let a2 := a1.map (fun r k => act2V (r 0 * w2 0 k + r 1 * w2 1 k + w2 2 k))
  (a1, a2)

/-- `XOR_back_prop`: average-gradient backward pass, returning (dW1, dW2)
with bias rows, each gradient divided by the batch size `m`. -/
def XOR_back_prop (x : List (Fin 2 → ℚ)) (act1D : ℚ → ℚ)
    (a1 : List (Fin 2 → ℚ)) (w2 : Fin 3 → Fin 1 → ℚ) (act2D : ℚ → ℚ)
    (a2 : List (Fin 1 → ℚ)) (y : List (Fin 1 → ℚ)) (lossD : ℚ → ℚ → ℚ) :
    (Fin 3 → Fin 2 → ℚ) × (Fin 3 → Fin 1 → ℚ) :=
  let m : ℚ := a1.length
  let delta2 : List ℚ := (a2.zip y).map (fun ay => lossD (ay.1 0) (ay.2 0) * act2D (ay.1 0))
  let dw2 : Fin 3 → Fin 1 → ℚ := fun i _ =>
    (((a1.zip delta2).map (fun ad =>
        (if i.val = 0 then ad.1 0 else if i.val = 1 then ad.1 1 else 1) * ad.2)).sum) / m
  let dw1 : Fin 3 → Fin 2 → ℚ := fun i j =>
    ((((x.zip a1).zip delta2).map (fun xad =>
        (if i.val = 0 then xad.1.1 0 else if i.val = 1 then xad.1.1 1 else 1) *
          ((xad.2 * w2 j 0) * act1D (xad.1.2 j)))).sum) / m
  (dw1, dw2)

/-! ## `XOR_array_model.fillModel` (`models.py`) -/

/-- `fillModel`'s sampling distribution: `p = xPercents / 100` with the
last entry forced to `1 - sum(p[:-1])`. -/
def p_distribution (xPercents : Fin 4 → ℤ) : Fin 4 → ℚ := fun i =>
  if i.val = 3
  then 1 - ((xPercents 0 : ℚ) / 100 + (xPercents 1 : ℚ) / 100 + (xPercents 2 : ℚ) / 100)
  else (xPercents i : ℚ) / 100

/-- `rng.choice([0,1,2,3], p=p)`: one raw draw mapped through the CDF of `p`. -/
def cdfClass (p : Fin 4 → ℚ) (q : ℚ) : Fin 4 :=
  if fract q < p 0 then 0
  else if fract q < p 0 + p 1 then 1
  else if fract q < p 0 + p 1 + p 2 then 2
  else 3

/-- Mutable state threaded by `fillModel`'s training loop: current
weights, accumulated hit counters, and the RNG stream position. -/
structure GenState where
  w1 : Fin 3 → Fin 2 → ℚ
  w2 : Fin 3 → Fin 1 → ℚ
  hits : Fin 4 → ℤ
  pos : Nat
deriving DecidableEq

/-- One cycle of the inner loop: sample a `batch_size` mini-batch from the
4-class distribution, accumulate hit counts, run forward+backward, and
apply `W <- clip(W - lr*dW, min, max)` with locked entries blended back. -/
def cycleStep (lib : FunLib) (g : Nat → ℚ) (tp : XOR_Slice) (st : GenState) : GenState :=
  let p := p_distribution tp.xPercents
  let batch : List (Fin 4) :=
    (List.range tp.batch_size).map (fun k => cdfClass p (g (st.pos + k)))
  let x := batch.map X_BATCH_4
  let y := batch.map tp.yParam
  let fwd := XOR_forward_prop x st.w1 (lib.actV tp.activation1) st.w2 (lib.actV tp.activation2)
  let bwd := XOR_back_prop x (lib.actD tp.activation1) fwd.1 st.w2
      (lib.actD tp.activation2) fwd.2 y (lib.lossD tp.loss)
  { w1 := fun i j =>
      npclip (st.w1 i j - bwd.1 i j * tp.learning_rate) (tp.minRange : ℚ) (tp.maxRange : ℚ) *
        (1 - tp.w1_lock i j) + st.w1 i j * tp.w1_lock i j
  , w2 := fun i k =>
      npclip (st.w2 i k - bwd.2 i k * tp.learning_rate) (tp.minRange : ℚ) (tp.maxRange : ℚ) *
        (1 - tp.w2_lock i k) + st.w2 i k * tp.w2_lock i k
  , hits := fun c => st.hits c + batch.count c
  , pos := st.pos + tp.batch_size }

/-- One outer step (`for i in range(1, epoch_size)` body): repeat
`cyclesPerOneStepFwdOfEpoch` cycles from the previous step's state. -/
def genStep (lib : FunLib) (g : Nat → ℚ) (tp : XOR_Slice) : GenState → GenState :=
  (cycleStep lib g tp)^[tp.cyclesPerOneStepFwdOfEpoch]

/-- Step 0 of a segment: the owning Turning Point's clipped matrices,
zero hit counters, and the stream at position 0. -/
def initState (tp : XOR_Slice) : GenState :=
  { w1 := fun i j => npclip (tp.w1 i j) (tp.minRange : ℚ) (tp.maxRange : ℚ)
  , w2 := fun i k => npclip (tp.w2 i k) (tp.minRange : ℚ) (tp.maxRange : ℚ)
  , hits := fun _ => 0
  , pos := 0 }

/-- The training-loop state stored at step `i`. -/
def stepState (lib : FunLib) (g : Nat → ℚ) (tp : XOR_Slice) (i : Nat) : GenState :=
  (genStep lib g tp)^[i] (initState tp)

/-- `XOR_array_model`: dense per-step arrays of one segment. -/
structure XOR_array_model where
  xHits : List (Fin 4 → ℤ)
  w1 : List (Fin 3 → Fin 2 → ℚ)
  z1 : List (Fin 4 → Fin 2 → ℚ)
  a1 : List (Fin 4 → Fin 2 → ℚ)
  w2 : List (Fin 3 → Fin 1 → ℚ)
  z2 : List (Fin 4 → Fin 1 → ℚ)
  y_aka_a2 : List (Fin 4 → Fin 1 → ℚ)
  lossPerX : List (Fin 4 → Fin 1 → ℚ)
  lossAvg : List ℚ
deriving DecidableEq

/-- `XOR_array_model.count`: `len(self.w1)`. -/
def XOR_array_model.count (m : XOR_array_model) : Nat := m.w1.length

/-- Bulk evaluation of one step's derived arrays against `X_BATCH_4`
(`fillModel`'s vectorised tail). -/
def bulkZ1 (w1 : Fin 3 → Fin 2 → ℚ) : Fin 4 → Fin 2 → ℚ := fun r j =>
  X_BATCH_4 r 0 * w1 0 j + X_BATCH_4 r 1 * w1 1 j + w1 2 j

/-- Bulk z2 from one step's hidden activations and output weights. -/
def bulkZ2 (a1 : Fin 4 → Fin 2 → ℚ) (w2 : Fin 3 → Fin 1 → ℚ) : Fin 4 → Fin 1 → ℚ :=
  fun r k => a1 r 0 * w2 0 k + a1 r 1 * w2 1 k + w2 2 k

/-- `XOR_array_model.fillModel` on the stream `g` that numpy derives from
`fromTP.index + (seedTP if seedTP >= 0 else 0)`: materialise
`epoch_size` steps, then bulk-evaluate the derived arrays. -/
def fillModel (lib : FunLib) (g : Nat → ℚ) (tp : XOR_Slice) : XOR_array_model :=
  let steps := (List.range tp.epoch_size).map (stepState lib g tp)
  let w1Arr := steps.map (·.w1)
  let w2Arr := steps.map (·.w2)
  let z1Arr := w1Arr.map bulkZ1
  let a1Arr := z1Arr.map (fun z r j => lib.actV tp.activation1 (z r j))
  let z2Arr := (a1Arr.zip w2Arr).map (fun aw => bulkZ2 aw.1 aw.2)
  let a2Arr := z2Arr.map (fun z r k => lib.actV tp.activation2 (z r k))
  { xHits := steps.map (·.hits)
  , w1 := w1Arr
  , z1 := z1Arr
  , a1 := a1Arr
  , w2 := w2Arr
  , z2 := z2Arr
  , y_aka_a2 := a2Arr
  , lossPerX := a2Arr.map (fun a r k => lib.lossV tp.loss (a r k) (tp.yParam r k))
  , lossAvg := a2Arr.map (fun a =>
      (lib.lossV tp.loss (a 0 0) (tp.yParam 0 0) + lib.lossV tp.loss (a 1 0) (tp.yParam 1 0) +
       lib.lossV tp.loss (a 2 0) (tp.yParam 2 0) + lib.lossV tp.loss (a 3 0) (tp.yParam 3 0)) / 4) }

/-! ## Array surgery (`XOR_array_model.deleteAfter` / `deleteBefore` / `append`) -/

/-- `XOR_array_model.deleteAfter(ix)`: keep positions `0..ix` (`ix` may be
`-1`, deleting everything). -/
def XOR_array_model.deleteAfter (m : XOR_array_model) (ix : ℤ) : XOR_array_model :=
  let n := (ix + 1).toNat
  { xHits := m.xHits.take n, w1 := m.w1.take n, z1 := m.z1.take n, a1 := m.a1.take n
  , w2 := m.w2.take n, z2 := m.z2.take n, y_aka_a2 := m.y_aka_a2.take n
  , lossPerX := m.lossPerX.take n, lossAvg := m.lossAvg.take n }

/-- `XOR_array_model.deleteBefore(ix)`: clamp `ix` into `[0, count-1]`,
keep position `ix` onward, and rebase the hit counters by subtracting the
counts at the new position 0. -/
def XOR_array_model.deleteBefore (m : XOR_array_model) (ix : ℤ) : XOR_array_model :=
  let ixc := (min (max 0 ix) ((m.count : ℤ) - 1)).toNat
  let hitsOnPos := m.xHits.getD ixc (fun _ => 0)
  { xHits := (m.xHits.drop ixc).map (fun h c => h c - hitsOnPos c)
  , w1 := m.w1.drop ixc, z1 := m.z1.drop ixc, a1 := m.a1.drop ixc
  , w2 := m.w2.drop ixc, z2 := m.z2.drop ixc, y_aka_a2 := m.y_aka_a2.drop ixc
  , lossPerX := m.lossPerX.drop ixc, lossAvg := m.lossAvg.drop ixc }

/-! ## Timeline controller (`XOR_model`)

The presentational diff texts and final-loss strings are not modelled;
the claims under study concern the Turning Point list and the arrays. -/

structure XOR_model where
  tps : List XOR_Slice
  arr : XOR_array_model
deriving DecidableEq

/-- `XOR_model.count`. -/
def XOR_model.count (M : XOR_model) : Nat := M.arr.count

/-- The `while lst[-1].cond: lst.pop()` loop: drop elements from the end
while the predicate holds. -/
def dropLastWhile {α : Type} (p : α → Bool) (l : List α) : List α :=
  (l.reverse.dropWhile p).reverse

/-- Apply `f` to the last element of a list (`lst[-1] = f(lst[-1])`). -/
def updateLast {α : Type} (f : α → α) : List α → List α
  | [] => []
  | [a] => [f a]
  | a :: b :: rest => a :: updateLast f (b :: rest)

/-- `XOR_model.deleteAfterPos(ix)`: for `ix > 0` the position `ix` itself
is deleted too ("positioning on a TP will delete the TP also"), then
Turning Points beyond the new end are popped and the last retained one's
`epoch_size` is recomputed. -/
def XOR_model.deleteAfterPos (M : XOR_model) (ix : ℤ) : XOR_model :=
  let ix' := if ix > 0 then ix - 1 else ix
  let arr' := M.arr.deleteAfter ix'
  let tps' := dropLastWhile (fun tp => tp.index > ix') M.tps
  let tps'' :=
    if ix > 0 then
      updateLast (fun tp => { tp with epoch_size := ((arr'.count : ℤ) - tp.index).toNat }) tps'
    else tps'
  { tps := tps'', arr := arr' }

/-- `XOR_model.deleteBefore(ix)`: clamp `ix`, drop steps before it, keep
the Turning Points from the last one with `index <= ix` onward, renumber
retained indices by `-ix` with the new first forced to 0, and recompute
the new first's `epoch_size`. -/
def XOR_model.deleteBefore (M : XOR_model) (ix : ℤ) : XOR_model :=
  let ixc : ℤ := min (max 0 ix) ((M.count : ℤ) - 1)
  let arr' := M.arr.deleteBefore ixc
  let tpIx := (M.tps.takeWhile (fun tp => tp.index ≤ ixc)).length - 1
  let kept := M.tps.drop tpIx
  let renum := kept.map (fun tp => { tp with index := tp.index - ixc })
  let tps1 := renum.modifyHead (fun tp => { tp with index := 0 })
  let eps := match tps1 with
    | _ :: t2 :: _ => t2.index.toNat
    | _ => arr'.count
  { tps := tps1.modifyHead (fun tp => { tp with epoch_size := eps }), arr := arr' }

/-- `XOR_model.setPos(ix)`: resolve the effective Turning Point (backward
scan for the last `index <= ix`) and overlay the concrete per-step arrays
stored at `ix`.  Returns `Option` since the scan can miss on a corrupt
list; on a well-formed controller the first Turning Point has index 0. -/
def XOR_model.setPosSlice (M : XOR_model) (ix : Nat) : Option XOR_Slice :=
  (M.tps.reverse.find? (fun tp => tp.index ≤ (ix : ℤ))).map (fun tp =>
    { tp with
      index := ix
      xHits := M.arr.xHits.getD ix (fun _ => 0)
      w1 := M.arr.w1.getD ix (fun _ _ => 0)
      z1 := M.arr.z1.getD ix (fun _ _ => 0)
      a1 := M.arr.a1.getD ix (fun _ _ => 0)
      w2 := M.arr.w2.getD ix (fun _ _ => 0)
      z2 := M.arr.z2.getD ix (fun _ _ => 0)
      y_aka_a2 := M.arr.y_aka_a2.getD ix (fun _ _ => 0)
      lossPerX := M.arr.lossPerX.getD ix (fun _ _ => 0)
      lossAvg := M.arr.lossAvg.getD ix 0 })

/-! ## `XOR_Slice.fromJson` (`models.py`) -/

/-- The `XOR_Slice(-1)` invalid slice that `LoadFromJson` feeds to
`fromJson` (`__init__`, `seedTP == -1` branch). -/
def invalidSlice : XOR_Slice :=
  { index := -1, seedTP := -1, batch_size := 1, epoch_size := 1
  , cyclesPerOneStepFwdOfEpoch := 1, learning_rate := 1/10
  , minRange := 0, maxRange := 0
  , activation1 := "ReLU", activation2 := "sigmoid", loss := "LCE_Loss"
  , xPercents := fun i => 10 * ((i : ℤ) + 1)
  , yParam := Y_XOR_TRUE_4, xHits := fun _ => -1
  , w1 := fun _ _ => 0, w1_lock := fun _ _ => 0
  , w2 := fun _ _ => 0, w2_lock := fun _ _ => 0
  , z1 := fun _ _ => 0, a1 := fun _ _ => 0, z2 := fun _ _ => 0
  , y_aka_a2 := fun _ _ => 0, lossPerX := fun _ _ => 1, lossAvg := 1 }

/-- The per-Turning-Point fields of the persisted JSON, already shaped
(`fromJson` raises on shape/type errors before the name lookups; the name
fields default to `""` via `json_object.get(key, "")`). -/
structure RawTP where
  index : ℤ
  seedTP : ℤ
  batch_size : Nat
  epoch_size : Nat
  cyclesPerOneStepFwdOfEpoch : Nat
  learning_rate : ℚ
  minRange : ℤ
  maxRange : ℤ
  yParam : Fin 4 → Fin 1 → ℚ
  xPercents : Fin 4 → ℤ
  w1 : Fin 3 → Fin 2 → ℚ
  w1_lock : Fin 3 → Fin 2 → ℚ
  activation1 : String
  w2 : Fin 3 → Fin 1 → ℚ
  w2_lock : Fin 3 → Fin 1 → ℚ
  activation2 : String
  loss : String
deriving DecidableEq

/-- `XOR_Slice.fromJson`: parse the fields, resolving unknown
activation/loss names to a registry fallback with a logged warning
(returned here as the warning list).  NOTE, faithful to the source: the
`activation2` fallback reads the *HiddenLayer* table's first entry. -/
def fromJson (raw : RawTP) : XOR_Slice × List String :=
  let act1Known := hiddenLayerNames.contains raw.activation1
  let act1 := if act1Known then raw.activation1 else hiddenLayerNames.headD ""
  let act2Known := outputLayerNames.contains raw.activation2
  let act2 := if act2Known then raw.activation2 else hiddenLayerNames.headD ""
  let lossKnown := lossFunctionNames.contains raw.loss
  let lossN := if lossKnown then raw.loss else lossFunctionNames.headD ""
  ( { invalidSlice with
      index := raw.index, seedTP := raw.seedTP, batch_size := raw.batch_size
    , epoch_size := raw.epoch_size
    , cyclesPerOneStepFwdOfEpoch := raw.cyclesPerOneStepFwdOfEpoch
    , learning_rate := raw.learning_rate
    , minRange := raw.minRange, maxRange := raw.maxRange
    , yParam := raw.yParam, xPercents := raw.xPercents
    , w1 := raw.w1, w1_lock := raw.w1_lock
    , w2 := raw.w2, w2_lock := raw.w2_lock
    , activation1 := act1, activation2 := act2, loss := lossN }
  , (if act1Known then [] else ["Warning: hidden activation function not defined"]) ++
    (if act2Known then [] else ["Warning: Output activation function not defined"]) ++
    (if lossKnown then [] else ["Warning: Loss function not defined"]) )

/-! ## Save-name gate (`main.py`, `saveModel`) -/

/-- The outcome of one `saveModel` call, as observable by the caller:
whether the save was accepted, whether a file write was attempted, and
the display-name-changed notification payload
(`sigModelNameChanged.emit`). -/
structure SaveOutcome where
  accepted : Bool
  fileWritten : Bool
  nameChangedNotification : Option String
deriving DecidableEq

/-- `saveModel`'s filename-length gate: a base name longer than
`MAX_LEN_FILENAME_JSON` returns `False` before any write, keeps the
truncated name and emits the name-changed notification; otherwise the
write is attempted (`writeOk` abstracts the filesystem outcome of
`SaveToJson`, which emits the notification on success). -/
def saveModel (baseName : String) (writeOk : Bool) : SaveOutcome :=
  if baseName.length > MAX_LEN_FILENAME_JSON then
    { accepted := false, fileWritten := false
    , nameChangedNotification := some (baseName.take MAX_LEN_FILENAME_JSON) }
  else
    { accepted := writeOk, fileWritten := writeOk
    , nameChangedNotification := if writeOk then some baseName else Option.none }

/-- The seed `fillModel` derives its stream from:
`fromTP.index + (fromTP.seedTP if fromTP.seedTP >= 0 else 0)`. -/
def fillStreamSeed (tp : XOR_Slice) : ℤ :=
  tp.index + (if 0 ≤ tp.seedTP then tp.seedTP else 0)

/-- Agreement on every persistent (prior) field of a Turning Point:
everything except the derived z1/a1/z2/y_aka_a2/lossPerX/lossAvg arrays,
which regeneration recomputes. -/
def priorAgree (s1 s2 : XOR_Slice) : Prop :=
  s1.index = s2.index ∧ s1.seedTP = s2.seedTP ∧ s1.batch_size = s2.batch_size ∧
  s1.epoch_size = s2.epoch_size ∧
  s1.cyclesPerOneStepFwdOfEpoch = s2.cyclesPerOneStepFwdOfEpoch ∧
  s1.learning_rate = s2.learning_rate ∧ s1.minRange = s2.minRange ∧
  s1.maxRange = s2.maxRange ∧ s1.activation1 = s2.activation1 ∧
  s1.activation2 = s2.activation2 ∧ s1.loss = s2.loss ∧
  s1.xPercents = s2.xPercents ∧ s1.yParam = s2.yParam ∧ s1.xHits = s2.xHits ∧
  s1.w1 = s2.w1 ∧ s1.w1_lock = s2.w1_lock ∧ s1.w2 = s2.w2 ∧ s1.w2_lock = s2.w2_lock

/-- One of the eight lockable configuration columns. -/
inductive LockField where
  | batch_size | epoch_size | cyclesPerOneStepFwdOfEpoch | learning_rate
  | clipRange | activation1 | activation2 | loss
deriving DecidableEq

/-- The lock set containing exactly one locked column. -/
def lockOnly : LockField → LockSet
  | LockField.batch_size => { LockSet.none with batch_size := true }
  | LockField.epoch_size => { LockSet.none with epoch_size := true }
  | LockField.cyclesPerOneStepFwdOfEpoch =>
      { LockSet.none with cyclesPerOneStepFwdOfEpoch := true }
  | LockField.learning_rate => { LockSet.none with learning_rate := true }
  | LockField.clipRange => { LockSet.none with minRange := true }
  | LockField.activation1 => { LockSet.none with activation1 := true }
  | LockField.activation2 => { LockSet.none with activation2 := true }
  | LockField.loss => { LockSet.none with loss := true }

/-! ## Concrete instantiations used by witnesses and counterexamples -/

/-- A concrete, rational-valued instantiation of the function table, used
only to evaluate the engine at concrete inputs (the relational claims are
proved for every `FunLib`). -/
def libQ : FunLib :=
  { actV := fun _ x => x, actD := fun _ _ => 1
  , lossV := fun _ a y => a - y, lossD := fun _ _ _ => 1 }

/-- A concrete raw stream: every raw value `1/2`. -/
def gHalf : Nat → ℚ := fun _ => 1/2

/-- A concrete index-0 slice with untouched weights and range `[0, 1]`. -/
def invalidSliceZero : XOR_Slice :=
  { invalidSlice with index := 0, seedTP := 7, minRange := 0, maxRange := 1 }

/-- A concrete Turning Point owning two steps (batch 1, one cycle). -/
def tpFill : XOR_Slice := { invalidSliceZero with epoch_size := 2 }

/-- A Turning Point stub with the given index and epoch size. -/
def mkTP (ix : ℤ) (eps : Nat) : XOR_Slice :=
  { invalidSlice with index := ix, epoch_size := eps }

/-- Zero-valued per-step arrays of length 20. -/
def arrScenario : XOR_array_model :=
  { xHits := List.replicate 20 (fun _ => 0)
  , w1 := List.replicate 20 (fun _ _ => 0)
  , z1 := List.replicate 20 (fun _ _ => 0)
  , a1 := List.replicate 20 (fun _ _ => 0)
  , w2 := List.replicate 20 (fun _ _ => 0)
  , z2 := List.replicate 20 (fun _ _ => 0)
  , y_aka_a2 := List.replicate 20 (fun _ _ => 0)
  , lossPerX := List.replicate 20 (fun _ _ => 0)
  , lossAvg := List.replicate 20 0 }

/-- The spec's truncation scenario: Turning Points at indices
`[0, 5, 12]`, total length 20. -/
def mScenario : XOR_model :=
  { tps := [mkTP 0 5, mkTP 5 7, mkTP 12 8], arr := arrScenario }

/-! ## Claim theorems -/

/-- C6: the claim says both the NumPy-array path and the plain-scalar path
of `sigmoid.derivative` and of the `LCE_Loss` constructor clip into
`(EPSILON, 1-EPSILON)`.  The array path does; the scalar fallback
`min(a, max(a, 0 + EPSILON), 1 - EPSILON)` collapses to `min(a, 1-EPSILON)`
and leaves `a = 0` unclipped, so the sigmoid derivative returns `0` (not
`EPSILON*(1-EPSILON)`) and the loss would take `log(0)` -- contradicting
the classes' own docstrings (`clip(0 + EPSILON, 1 - EPSILON)`). -/
theorem scalar_clip_paths_at_zero :
    sigmoid_derivative_scalar 0 = 0 ∧
    lce_clip_scalar 0 = 0 ∧
    lce_clip_scalar 0 < EPSILON ∧
    sigmoid_derivative_array 0 = EPSILON * (1 - EPSILON) ∧
    lce_clip_array 0 = EPSILON := by
  refine ⟨?_, ?_, ?_, ?_, ?_⟩ <;>
    norm_num [sigmoid_derivative_scalar, sigmoid_derivative_array, lce_clip_scalar,
      lce_clip_array, npclip, npmin, npmax, EPSILON]

/-- C10: a chosen save base name longer than `MAX_LEN_FILENAME_JSON = 50`
makes `saveModel` decline (returns `False`, writes nothing) and emit the
display-name-changed notification carrying the name truncated to 50. -/
theorem saveModel_rejects_long_names (name : String) (writeOk : Bool)
    (h : name.length > MAX_LEN_FILENAME_JSON) :
    saveModel name writeOk =
      { accepted := false, fileWritten := false
      , nameChangedNotification := some (name.take MAX_LEN_FILENAME_JSON) } ∧
    (name.take MAX_LEN_FILENAME_JSON).length = MAX_LEN_FILENAME_JSON := by
  constructor
  · simp [saveModel, h]
  · rw [String.take_eq]
    show (name.1.take MAX_LEN_FILENAME_JSON).length = MAX_LEN_FILENAME_JSON
    rw [List.length_take]
    have : name.length = name.1.length := rfl
    omega

/-- C10 witness: a 51-character base name is declined with the 50-character
truncation. -/
theorem saveModel_rejects_long_names_witness :
    ("abcdefghijklmnopqrstuvwxyzabcdefghijklmnopqrstuvwxy" : String).length >
      MAX_LEN_FILENAME_JSON ∧
    saveModel "abcdefghijklmnopqrstuvwxyzabcdefghijklmnopqrstuvwxy" true =
      { accepted := false, fileWritten := false
      , nameChangedNotification :=
          some ("abcdefghijklmnopqrstuvwxyzabcdefghijklmnopqrstuvwxy".take
            MAX_LEN_FILENAME_JSON) } :=
  ⟨by decide, (saveModel_rejects_long_names _ true (by decide)).1⟩

/-- C9: on JSON load, an unregistered hidden-activation, output-activation
or loss name never raises: the field falls back to the first registered
entry of the relevant role table (for the output activation the source
reads the HiddenLayer table, whose first entry coincides with the
OutputLayer table's first entry, `"sigmoid"`), a warning is logged, and
all other fields are parsed normally. -/
theorem fromJson_soft_fallback (raw : RawTP) :
    (¬ hiddenLayerNames.contains raw.activation1 →
      (fromJson raw).1.activation1 = hiddenLayerNames.headD "" ∧
      "Warning: hidden activation function not defined" ∈ (fromJson raw).2) ∧
    (¬ outputLayerNames.contains raw.activation2 →
      (fromJson raw).1.activation2 = outputLayerNames.headD "" ∧
      "Warning: Output activation function not defined" ∈ (fromJson raw).2) ∧
    (¬ lossFunctionNames.contains raw.loss →
      (fromJson raw).1.loss = lossFunctionNames.headD "" ∧
      "Warning: Loss function not defined" ∈ (fromJson raw).2) ∧
    (fromJson raw).1.index = raw.index ∧ (fromJson raw).1.seedTP = raw.seedTP ∧
    (fromJson raw).1.batch_size = raw.batch_size ∧
    (fromJson raw).1.epoch_size = raw.epoch_size ∧
    (fromJson raw).1.cyclesPerOneStepFwdOfEpoch = raw.cyclesPerOneStepFwdOfEpoch ∧
    (fromJson raw).1.learning_rate = raw.learning_rate ∧
    (fromJson raw).1.minRange = raw.minRange ∧ (fromJson raw).1.maxRange = raw.maxRange ∧
    (fromJson raw).1.yParam = raw.yParam ∧ (fromJson raw).1.xPercents = raw.xPercents ∧
    (fromJson raw).1.w1 = raw.w1 ∧ (fromJson raw).1.w1_lock = raw.w1_lock ∧
    (fromJson raw).1.w2 = raw.w2 ∧ (fromJson raw).1.w2_lock = raw.w2_lock := by
  refine ⟨fun h1 => ?_, fun h2 => ?_, fun h3 => ?_, ?_, ?_, ?_, ?_, ?_, ?_, ?_, ?_, ?_,
    ?_, ?_, ?_, ?_, ?_⟩ <;>
    simp_all [fromJson, hiddenLayerNames, outputLayerNames, lossFunctionNames, funcTable]

/-- C9 witness: a raw Turning Point with three bogus names falls back to
`"sigmoid"`, `"sigmoid"` and `"LCE_Loss"` with three warnings. -/
theorem fromJson_soft_fallback_witness :
    ¬ hiddenLayerNames.contains "bogus1" ∧ ¬ outputLayerNames.contains "bogus2" ∧
    ¬ lossFunctionNames.contains "bogus3" ∧
    (fromJson { index := 3, seedTP := 11, batch_size := 2, epoch_size := 7
              , cyclesPerOneStepFwdOfEpoch := 2, learning_rate := 1/4
              , minRange := -3, maxRange := 4
              , yParam := Y_XOR_TRUE_4, xPercents := fun _ => 25
              , w1 := fun _ _ => 1, w1_lock := fun _ _ => 0
              , activation1 := "bogus1"
              , w2 := fun _ _ => 2, w2_lock := fun _ _ => 0
              , activation2 := "bogus2", loss := "bogus3" }).1.activation1 =
      hiddenLayerNames.headD "" := by
  refine ⟨by decide, by decide, by decide, ?_⟩
  exact ((fromJson_soft_fallback _).1 (by decide)).1

/-- C2: in `feedFromSeed`, every configuration draw is consumed from the
stream regardless of the lock state -- the consumed-draw count for any
lock set equals the fully-unlocked count, and each drawn value sits at a
fixed stream position -- and each draw's result is applied to its field
exactly when that field is not locked (the clip min and max draws are
both keyed by the clip-interval lock). -/
theorem feedFromSeed_always_consumes (lib : FunLib) (g : Nat → ℚ) (seed : ℤ)
    (L : LockSet) (s : XOR_Slice) :
    (feedFromSeedPos lib g seed L s).2 = (feedFromSeedPos lib g seed LockSet.none s).2 ∧
    (feedFromSeed lib g seed L s).batch_size =
      (if L.batch_size then s.batch_size else rngChoice BATCH_SIZE_CHOICES (g 0)) ∧
    (feedFromSeed lib g seed L s).epoch_size =
      (if L.epoch_size then s.epoch_size else rngChoice EPOCH_SIZE_CHOICES (g 1)) ∧
    (feedFromSeed lib g seed L s).cyclesPerOneStepFwdOfEpoch =
      (if L.cyclesPerOneStepFwdOfEpoch then s.cyclesPerOneStepFwdOfEpoch
       else rngChoice CYCLES_PER_EPOCH_CHOICES (g 2)) ∧
    (feedFromSeed lib g seed L s).learning_rate =
      (if L.learning_rate then s.learning_rate else rngLearningRate (g 3)) ∧
    (feedFromSeed lib g seed L s).minRange =
      (if L.minRange then s.minRange else rngIntegers (-20) 20 (g 4)) ∧
    (feedFromSeed lib g seed L s).maxRange =
      (if L.minRange then s.maxRange
       else rngIntegersIncl (rngIntegers (-20) 20 (g 4) + 1) 20 (g 5)) ∧
    (feedFromSeed lib g seed L s).activation1 =
      (if L.activation1 then s.activation1 else rngChoice hiddenLayerNames (g 6)) ∧
    (feedFromSeed lib g seed L s).activation2 =
      (if L.activation2 then s.activation2 else rngChoice outputLayerNames (g 7)) ∧
    (feedFromSeed lib g seed L s).loss =
      (if L.loss then s.loss else rngChoice lossFunctionNames (g 8)) := by
  by_cases h : s.index = 0 <;>
    refine ⟨?_, ?_, ?_, ?_, ?_, ?_, ?_, ?_, ?_, ?_⟩ <;>
    simp [feedFromSeed, feedFromSeedPos, compute_z_a_loss, h]

/-- C5: for any stream, lock set and slice at index 0, the regenerated
percentages are four non-negative integers summing to exactly 100, the
last bucket absorbing the rounding remainder. -/
theorem feedFromSeed_percentages (lib : FunLib) (g : Nat → ℚ) (seed : ℤ)
    (L : LockSet) (s : XOR_Slice) (h : s.index = 0) :
    (∀ i, 0 ≤ (feedFromSeed lib g seed L s).xPercents i) ∧
    (feedFromSeed lib g seed L s).xPercents 0 + (feedFromSeed lib g seed L s).xPercents 1 +
      (feedFromSeed lib g seed L s).xPercents 2 +
      (feedFromSeed lib g seed L s).xPercents 3 = 100 ∧
    (feedFromSeed lib g seed L s).xPercents 3 =
      100 - ((feedFromSeed lib g seed L s).xPercents 0 +
        (feedFromSeed lib g seed L s).xPercents 1 +
        (feedFromSeed lib g seed L s).xPercents 2) := by
  have hd0 := rngDirichlet4_nonneg g 9 0
  have hd1 := rngDirichlet4_nonneg g 9 1
  have hd2 := rngDirichlet4_nonneg g 9 2
  have hd3 := rngDirichlet4_nonneg g 9 3
  have hsum := rngDirichlet4_sum g 9
  have e0 : (feedFromSeed lib g seed L s).xPercents 0 =
      truncInt (rngDirichlet4 g 9 0 * 100) := by
    simp [feedFromSeed, feedFromSeedPos, compute_z_a_loss, h]
  have e1 : (feedFromSeed lib g seed L s).xPercents 1 =
      truncInt (rngDirichlet4 g 9 1 * 100) := by
    simp [feedFromSeed, feedFromSeedPos, compute_z_a_loss, h]
  have e2 : (feedFromSeed lib g seed L s).xPercents 2 =
      truncInt (rngDirichlet4 g 9 2 * 100) := by
    simp [feedFromSeed, feedFromSeedPos, compute_z_a_loss, h]
  have e3 : (feedFromSeed lib g seed L s).xPercents 3 =
      100 - (truncInt (rngDirichlet4 g 9 0 * 100) + truncInt (rngDirichlet4 g 9 1 * 100) +
        truncInt (rngDirichlet4 g 9 2 * 100)) := by
    simp [feedFromSeed, feedFromSeedPos, compute_z_a_loss, h,
      show ((3 : Fin 4) : ℕ) = 3 from rfl]
  have htr : ∀ x : ℚ, 0 ≤ x → truncInt (x * 100) = ⌊x * 100⌋ := by
    intro x hx
    unfold truncInt
    simp [mul_nonneg hx (by norm_num : (0:ℚ) ≤ 100)]
  have hfl : ∀ x : ℚ, 0 ≤ x → (0:ℤ) ≤ ⌊x * 100⌋ := by
    intro x hx
    exact Int.floor_nonneg.mpr (mul_nonneg hx (by norm_num))
  have hb : ⌊rngDirichlet4 g 9 0 * 100⌋ + ⌊rngDirichlet4 g 9 1 * 100⌋ +
      ⌊rngDirichlet4 g 9 2 * 100⌋ ≤ 100 := by
    have h0 := Int.floor_le (rngDirichlet4 g 9 0 * 100)
    have h1 := Int.floor_le (rngDirichlet4 g 9 1 * 100)
    have h2 := Int.floor_le (rngDirichlet4 g 9 2 * 100)
    have hcast : (↑(⌊rngDirichlet4 g 9 0 * 100⌋ + ⌊rngDirichlet4 g 9 1 * 100⌋ +
        ⌊rngDirichlet4 g 9 2 * 100⌋) : ℚ) ≤ 100 := by
      push_cast
      have h3100 : 0 ≤ rngDirichlet4 g 9 3 * 100 := by positivity
      linarith
    exact_mod_cast hcast
  rw [htr _ hd0] at e0 e3
  rw [htr _ hd1] at e1 e3
  rw [htr _ hd2] at e2 e3
  refine ⟨?_, ?_, ?_⟩
  · intro i
    fin_cases i
    · show 0 ≤ (feedFromSeed lib g seed L s).xPercents 0
      rw [e0]; exact hfl _ hd0
    · show 0 ≤ (feedFromSeed lib g seed L s).xPercents 1
      rw [e1]; exact hfl _ hd1
    · show 0 ≤ (feedFromSeed lib g seed L s).xPercents 2
      rw [e2]; exact hfl _ hd2
    · show 0 ≤ (feedFromSeed lib g seed L s).xPercents 3
      rw [e3]; omega
  · rw [e0, e1, e2, e3]; ring
  · rw [e0, e1, e2, e3]

/-- C5 witness: a concrete stream and index-0 slice where the percentages
are nonnegative and sum to 100. -/
theorem feedFromSeed_percentages_witness :
    invalidSliceZero.index = 0 ∧
    (∀ i, 0 ≤ (feedFromSeed libQ gHalf 7 LockSet.none invalidSliceZero).xPercents i) ∧
    (feedFromSeed libQ gHalf 7 LockSet.none invalidSliceZero).xPercents 0 +
      (feedFromSeed libQ gHalf 7 LockSet.none invalidSliceZero).xPercents 1 +
      (feedFromSeed libQ gHalf 7 LockSet.none invalidSliceZero).xPercents 2 +
      (feedFromSeed libQ gHalf 7 LockSet.none invalidSliceZero).xPercents 3 = 100 := by
  refine ⟨rfl, ?_, ?_⟩
  · exact (feedFromSeed_percentages libQ gHalf 7 LockSet.none invalidSliceZero rfl).1
  · exact (feedFromSeed_percentages libQ gHalf 7 LockSet.none invalidSliceZero rfl).2.1

/-- C1: seed plus lock set (plus the prior persistent field values)
fully determines a regenerated segment: two regenerations agreeing on
those -- the streams being the fixed functions of the seeds -- produce
an identical regenerated Turning Point and identical per-step arrays
(weights, activations, losses, hits), whatever the prior derived arrays
held. -/
theorem regeneration_determined_by_seed_and_locks
    (lib : FunLib) (rngTP rngFill : ℤ → Nat → ℚ) (L : LockSet) (s1 s2 : XOR_Slice)
    (h : priorAgree s1 s2) :
    feedFromSeed lib (rngTP s1.seedTP) s1.seedTP L s1 =
      feedFromSeed lib (rngTP s2.seedTP) s2.seedTP L s2 ∧
    fillModel lib
        (rngFill (fillStreamSeed (feedFromSeed lib (rngTP s1.seedTP) s1.seedTP L s1)))
        (feedFromSeed lib (rngTP s1.seedTP) s1.seedTP L s1) =
      fillModel lib
        (rngFill (fillStreamSeed (feedFromSeed lib (rngTP s2.seedTP) s2.seedTP L s2)))
        (feedFromSeed lib (rngTP s2.seedTP) s2.seedTP L s2) := by
  obtain ⟨h1, h2, h3, h4, h5, h6, h7, h8, h9, h10, h11, h12, h13, h14, h15, h16,
    h17, h18⟩ := h
  cases s1
  cases s2
  dsimp only at h1 h2 h3 h4 h5 h6 h7 h8 h9 h10 h11 h12 h13 h14 h15 h16 h17 h18
  subst h1 h2 h3 h4 h5 h6 h7 h8 h9 h10 h11 h12 h13 h14 h15 h16 h17 h18
  exact ⟨rfl, rfl⟩

/-- C1 witness: two slices differing only in a derived array regenerate
to the same slice. -/
theorem regeneration_determined_witness :
    invalidSliceZero.z1 0 0 = 0 ∧
    ({ invalidSliceZero with z1 := fun _ _ => 5 } : XOR_Slice).z1 0 0 = 5 ∧
    feedFromSeed libQ (gHalf) invalidSliceZero.seedTP LockSet.none invalidSliceZero =
      feedFromSeed libQ (gHalf)
        ({ invalidSliceZero with z1 := fun _ _ => 5 } : XOR_Slice).seedTP LockSet.none
        { invalidSliceZero with z1 := fun _ _ => 5 } :=
  ⟨rfl, rfl,
    (regeneration_determined_by_seed_and_locks libQ (fun _ => gHalf) (fun _ => gHalf)
      LockSet.none invalidSliceZero { invalidSliceZero with z1 := fun _ _ => 5 }
      ⟨rfl, rfl, rfl, rfl, rfl, rfl, rfl, rfl, rfl, rfl, rfl, rfl, rfl, rfl, rfl,
        rfl, rfl, rfl⟩).1⟩

theorem lockOnly_batch_size (F : LockField) :
    (lockOnly F).batch_size = decide (F = LockField.batch_size) := by cases F <;> rfl

theorem lockOnly_epoch_size (F : LockField) :
    (lockOnly F).epoch_size = decide (F = LockField.epoch_size) := by cases F <;> rfl

theorem lockOnly_cycles (F : LockField) :
    (lockOnly F).cyclesPerOneStepFwdOfEpoch =
      decide (F = LockField.cyclesPerOneStepFwdOfEpoch) := by cases F <;> rfl

theorem lockOnly_learning_rate (F : LockField) :
    (lockOnly F).learning_rate = decide (F = LockField.learning_rate) := by
  cases F <;> rfl

theorem lockOnly_minRange (F : LockField) :
    (lockOnly F).minRange = decide (F = LockField.clipRange) := by cases F <;> rfl

theorem lockOnly_activation1 (F : LockField) :
    (lockOnly F).activation1 = decide (F = LockField.activation1) := by cases F <;> rfl

theorem lockOnly_activation2 (F : LockField) :
    (lockOnly F).activation2 = decide (F = LockField.activation2) := by cases F <;> rfl

theorem lockOnly_loss (F : LockField) :
    (lockOnly F).loss = decide (F = LockField.loss) := by cases F <;> rfl

/-- The regenerated weight matrices and percentages depend on the lock set
only through the clip-range lock: two lock sets agreeing on `minRange`
yield the same w1, w2 and xPercents. -/
theorem feedFromSeed_weights_lock_indep (lib : FunLib) (g : Nat → ℚ) (seed : ℤ)
    (L L' : LockSet) (s : XOR_Slice) (hmin : L.minRange = L'.minRange) :
    (feedFromSeed lib g seed L s).w1 = (feedFromSeed lib g seed L' s).w1 ∧
    (feedFromSeed lib g seed L s).w2 = (feedFromSeed lib g seed L' s).w2 ∧
    (feedFromSeed lib g seed L s).xPercents = (feedFromSeed lib g seed L' s).xPercents := by
  by_cases h0 : s.index = 0 <;>
    refine ⟨?_, ?_, ?_⟩ <;>
    simp [feedFromSeed, feedFromSeedPos, compute_z_a_loss, h0, hmin]

/-- C3 counterexample: the claim extends the single-lock invariance to
every field including the clip range and the regenerated weight entries,
but locking the clip-range field alone makes an unlocked w1 entry differ
from the unlocked run, because the index-0 uniform regeneration draws are
scaled into the retained range instead of the freshly drawn one. -/
theorem clip_lock_changes_unlocked_weight :
    invalidSliceZero.w1_lock 0 0 = 0 ∧
    (feedFromSeed libQ gHalf 7 (lockOnly LockField.clipRange) invalidSliceZero).w1 0 0 =
      1/2 ∧
    (feedFromSeed libQ gHalf 7 LockSet.none invalidSliceZero).w1 0 0 = -39/2 ∧
    (feedFromSeed libQ gHalf 7 (lockOnly LockField.clipRange) invalidSliceZero).w1 0 0 ≠
      (feedFromSeed libQ gHalf 7 LockSet.none invalidSliceZero).w1 0 0 := by
  refine ⟨rfl, ?_, ?_, ?_⟩ <;>
    norm_num [feedFromSeed, feedFromSeedPos, compute_z_a_loss, lockOnly, LockSet.none,
      invalidSliceZero, invalidSlice, gHalf, rngIntegers, rngIntegersIncl, rngUniform,
      fract, rngChoice, rngLearningRate, rngDirichlet4, truncInt]

/-- C3 amended: for every single locked field other than the clip range,
a run with only that field locked matches the fully unlocked run on all
other drawn fields, the clip range, and (at index 0) the regenerated
percentages and weight matrices; only the locked field's own application
differs.  (For the clip-range field itself the drawn config fields and
percentages still agree, but regenerated weights may not -- see the
counterexample.) -/
theorem single_lock_preserves_other_fields
    (lib : FunLib) (g : Nat → ℚ) (seed : ℤ) (s : XOR_Slice) (F : LockField)
    (hF : F ≠ LockField.clipRange) :
    (F ≠ LockField.batch_size →
      (feedFromSeed lib g seed (lockOnly F) s).batch_size =
        (feedFromSeed lib g seed LockSet.none s).batch_size) ∧
    (F ≠ LockField.epoch_size →
      (feedFromSeed lib g seed (lockOnly F) s).epoch_size =
        (feedFromSeed lib g seed LockSet.none s).epoch_size) ∧
    (F ≠ LockField.cyclesPerOneStepFwdOfEpoch →
      (feedFromSeed lib g seed (lockOnly F) s).cyclesPerOneStepFwdOfEpoch =
        (feedFromSeed lib g seed LockSet.none s).cyclesPerOneStepFwdOfEpoch) ∧
    (F ≠ LockField.learning_rate →
      (feedFromSeed lib g seed (lockOnly F) s).learning_rate =
        (feedFromSeed lib g seed LockSet.none s).learning_rate) ∧
    (feedFromSeed lib g seed (lockOnly F) s).minRange =
      (feedFromSeed lib g seed LockSet.none s).minRange ∧
    (feedFromSeed lib g seed (lockOnly F) s).maxRange =
      (feedFromSeed lib g seed LockSet.none s).maxRange ∧
    (F ≠ LockField.activation1 →
      (feedFromSeed lib g seed (lockOnly F) s).activation1 =
        (feedFromSeed lib g seed LockSet.none s).activation1) ∧
    (F ≠ LockField.activation2 →
      (feedFromSeed lib g seed (lockOnly F) s).activation2 =
        (feedFromSeed lib g seed LockSet.none s).activation2) ∧
    (F ≠ LockField.loss →
      (feedFromSeed lib g seed (lockOnly F) s).loss =
        (feedFromSeed lib g seed LockSet.none s).loss) ∧
    (feedFromSeed lib g seed (lockOnly F) s).xPercents =
      (feedFromSeed lib g seed LockSet.none s).xPercents ∧
    (feedFromSeed lib g seed (lockOnly F) s).w1 =
      (feedFromSeed lib g seed LockSet.none s).w1 ∧
    (feedFromSeed lib g seed (lockOnly F) s).w2 =
      (feedFromSeed lib g seed LockSet.none s).w2 := by
  have hc := feedFromSeed_always_consumes lib g seed (lockOnly F) s
  have hu := feedFromSeed_always_consumes lib g seed LockSet.none s
  have hmin : (lockOnly F).minRange = LockSet.none.minRange := by
    rw [lockOnly_minRange]
    simp [LockSet.none, hF]
  have hw := feedFromSeed_weights_lock_indep lib g seed (lockOnly F) LockSet.none s hmin
  refine ⟨fun h => ?_, fun h => ?_, fun h => ?_, fun h => ?_, ?_, ?_, fun h => ?_,
    fun h => ?_, fun h => ?_, hw.2.2, hw.1, hw.2.1⟩
  · rw [hc.2.1, hu.2.1, lockOnly_batch_size]
    simp [LockSet.none, h]
  · rw [hc.2.2.1, hu.2.2.1, lockOnly_epoch_size]
    simp [LockSet.none, h]
  · rw [hc.2.2.2.1, hu.2.2.2.1, lockOnly_cycles]
    simp [LockSet.none, h]
  · rw [hc.2.2.2.2.1, hu.2.2.2.2.1, lockOnly_learning_rate]
    simp [LockSet.none, h]
  · rw [hc.2.2.2.2.2.1, hu.2.2.2.2.2.1, hmin]
  · rw [hc.2.2.2.2.2.2.1, hu.2.2.2.2.2.2.1, hmin]
  · rw [hc.2.2.2.2.2.2.2.1, hu.2.2.2.2.2.2.2.1, lockOnly_activation1]
    simp [LockSet.none, h]
  · rw [hc.2.2.2.2.2.2.2.2.1, hu.2.2.2.2.2.2.2.2.1, lockOnly_activation2]
    simp [LockSet.none, h]
  · rw [hc.2.2.2.2.2.2.2.2.2, hu.2.2.2.2.2.2.2.2.2, lockOnly_loss]
    simp [LockSet.none, h]

/-- C3 witness: locking only the batch-size field leaves the other drawn
fields and the regenerated weights of the unlocked run unchanged. -/
theorem single_lock_preserves_other_fields_witness :
    (LockField.batch_size ≠ LockField.clipRange) ∧
    (feedFromSeed libQ gHalf 7 (lockOnly LockField.batch_size) invalidSliceZero).w1 =
      (feedFromSeed libQ gHalf 7 LockSet.none invalidSliceZero).w1 :=
  ⟨by decide,
    (single_lock_preserves_other_fields libQ gHalf 7 invalidSliceZero
      LockField.batch_size (by decide)).2.2.2.2.2.2.2.2.2.2.1⟩

theorem iterate_cycleStep_pos (lib : FunLib) (g : Nat → ℚ) (tp : XOR_Slice)
    (n : Nat) (st : GenState) :
    ((cycleStep lib g tp)^[n] st).pos = st.pos + n * tp.batch_size := by
  induction n generalizing st with
  | zero => simp
  | succ k ih =>
    rw [Function.iterate_succ_apply, ih]
    show (cycleStep lib g tp st).pos + k * tp.batch_size = _
    simp [cycleStep]
    ring

theorem stepState_pos (lib : FunLib) (g : Nat → ℚ) (tp : XOR_Slice) (i : Nat) :
    (stepState lib g tp i).pos = i * (tp.cyclesPerOneStepFwdOfEpoch * tp.batch_size) := by
  induction i with
  | zero => simp [stepState, initState]
  | succ k ih =>
    unfold stepState at ih ⊢
    rw [Function.iterate_succ_apply']
    show ((cycleStep lib g tp)^[tp.cyclesPerOneStepFwdOfEpoch] _).pos = _
    rw [iterate_cycleStep_pos, ih]
    ring

theorem getD_map_range {α : Type} (f : Nat → α) (n i : Nat) (h : i < n) (d : α) :
    ((List.range n).map f).getD i d = f i := by
  simp [List.getD_eq_getElem?_getD, List.getElem?_map, List.getElem?_range, h]

/-- C4: in the per-step loop of `fillModel`, step 0 stores the owning
Turning Point's W1/W2 clipped into `[minRange, maxRange]` with zero hit
counts, and each step `i+1` stores exactly the result of applying one
outer step (`cyclesPerOneStepFwdOfEpoch` cycles of: sample a `batch_size`
mini-batch from the 4-class distribution with the last probability forced
to `1 - sum` of the others, accumulate hit counts, forward+backward, and
`W <- clip(W - lr*dW, min, max)` with locked entries blended back) to the
stored state of step `i`, the stream positioned after the
`i * cycles * batch_size` draws already consumed. -/
theorem fillModel_step_recurrence (lib : FunLib) (g : Nat → ℚ) (tp : XOR_Slice) :
    (0 < tp.epoch_size →
      (fillModel lib g tp).w1.getD 0 (fun _ _ => 0) =
        (fun i j => npclip (tp.w1 i j) (tp.minRange : ℚ) (tp.maxRange : ℚ)) ∧
      (fillModel lib g tp).w2.getD 0 (fun _ _ => 0) =
        (fun i k => npclip (tp.w2 i k) (tp.minRange : ℚ) (tp.maxRange : ℚ)) ∧
      (fillModel lib g tp).xHits.getD 0 (fun _ => 0) = (fun _ => 0)) ∧
    (∀ i : Nat, i + 1 < tp.epoch_size →
      (fillModel lib g tp).w1.getD (i+1) (fun _ _ => 0) =
        (genStep lib g tp
          { w1 := (fillModel lib g tp).w1.getD i (fun _ _ => 0)
          , w2 := (fillModel lib g tp).w2.getD i (fun _ _ => 0)
          , hits := (fillModel lib g tp).xHits.getD i (fun _ => 0)
          , pos := i * (tp.cyclesPerOneStepFwdOfEpoch * tp.batch_size) }).w1 ∧
      (fillModel lib g tp).w2.getD (i+1) (fun _ _ => 0) =
        (genStep lib g tp
          { w1 := (fillModel lib g tp).w1.getD i (fun _ _ => 0)
          , w2 := (fillModel lib g tp).w2.getD i (fun _ _ => 0)
          , hits := (fillModel lib g tp).xHits.getD i (fun _ => 0)
          , pos := i * (tp.cyclesPerOneStepFwdOfEpoch * tp.batch_size) }).w2 ∧
      (fillModel lib g tp).xHits.getD (i+1) (fun _ => 0) =
        (genStep lib g tp
          { w1 := (fillModel lib g tp).w1.getD i (fun _ _ => 0)
          , w2 := (fillModel lib g tp).w2.getD i (fun _ _ => 0)
          , hits := (fillModel lib g tp).xHits.getD i (fun _ => 0)
          , pos := i * (tp.cyclesPerOneStepFwdOfEpoch * tp.batch_size) }).hits) := by
  have hw1 : ∀ i, i < tp.epoch_size →
      (fillModel lib g tp).w1.getD i (fun _ _ => 0) = (stepState lib g tp i).w1 := by
    intro i hi
    show (((List.range tp.epoch_size).map (stepState lib g tp)).map (·.w1)).getD i _ =
      (stepState lib g tp i).w1
    rw [List.map_map]
    exact getD_map_range _ _ _ hi _
  have hw2 : ∀ i, i < tp.epoch_size →
      (fillModel lib g tp).w2.getD i (fun _ _ => 0) = (stepState lib g tp i).w2 := by
    intro i hi
    show (((List.range tp.epoch_size).map (stepState lib g tp)).map (·.w2)).getD i _ =
      (stepState lib g tp i).w2
    rw [List.map_map]
    exact getD_map_range _ _ _ hi _
  have hh : ∀ i, i < tp.epoch_size →
      (fillModel lib g tp).xHits.getD i (fun _ => 0) = (stepState lib g tp i).hits := by
    intro i hi
    show (((List.range tp.epoch_size).map (stepState lib g tp)).map (·.hits)).getD i _ =
      (stepState lib g tp i).hits
    rw [List.map_map]
    exact getD_map_range _ _ _ hi _
  have hstate : ∀ i : Nat,
      GenState.mk (stepState lib g tp i).w1 (stepState lib g tp i).w2
        (stepState lib g tp i).hits
        (i * (tp.cyclesPerOneStepFwdOfEpoch * tp.batch_size)) =
      stepState lib g tp i := by
    intro i
    rw [← stepState_pos lib g tp i]
  constructor
  · intro hpos
    refine ⟨?_, ?_, ?_⟩
    · rw [hw1 0 hpos]; rfl
    · rw [hw2 0 hpos]; rfl
    · rw [hh 0 hpos]; rfl
  · intro i hi
    have hi' : i < tp.epoch_size := Nat.lt_of_succ_lt hi
    refine ⟨?_, ?_, ?_⟩
    · rw [hw1 (i+1) hi, hw1 i hi', hw2 i hi', hh i hi', hstate i]
      show ((genStep lib g tp)^[i+1] (initState tp)).w1 = _
      rw [Function.iterate_succ_apply']
      rfl
    · rw [hw2 (i+1) hi, hw1 i hi', hw2 i hi', hh i hi', hstate i]
      show ((genStep lib g tp)^[i+1] (initState tp)).w2 = _
      rw [Function.iterate_succ_apply']
      rfl
    · rw [hh (i+1) hi, hw1 i hi', hw2 i hi', hh i hi', hstate i]
      show ((genStep lib g tp)^[i+1] (initState tp)).hits = _
      rw [Function.iterate_succ_apply']
      rfl

/-- C7 counterexample: on the controller with Turning Points `[0, 5, 12]`
and total length 20, `deleteAfterPos(12)` does NOT truncate the length to
13, and the last Turning Point's `epoch_size` does not become 1: the call
decrements the position first ("positioning on a TP will delete the TP
also"), keeping positions `0..11` only. -/
theorem deleteAfterPos_scenario_refuted :
    ¬ ((mScenario.deleteAfterPos 12).count = 13 ∧
       ((mScenario.deleteAfterPos 12).tps.getLast?.map (·.epoch_size)) = some 1) := by
  decide

/-- C7 amended: `deleteAfterPos(12)` on the `[0, 5, 12]` / length-20
scenario truncates the total length to 12, drops the Turning Point whose
boundary coincides with the position, and sets the last remaining Turning
Point's `epoch_size` to 7 (= new length − its index 5); the array-level
`deleteAfter(ix)` alone keeps exactly positions `0..ix`. -/
theorem deleteAfterPos_scenario_amended :
    (mScenario.deleteAfterPos 12).count = 12 ∧
    (mScenario.deleteAfterPos 12).tps.map (·.index) = [0, 5] ∧
    ((mScenario.deleteAfterPos 12).tps.getLast?.map (·.epoch_size)) = some 7 ∧
    (∀ (arr : XOR_array_model) (ix : ℤ),
      (arr.deleteAfter ix).w1 = arr.w1.take (ix+1).toNat ∧
      (arr.deleteAfter ix).xHits = arr.xHits.take (ix+1).toNat ∧
      (arr.deleteAfter ix).lossAvg = arr.lossAvg.take (ix+1).toNat) :=
  ⟨by decide, by decide, by decide, fun _ _ => ⟨rfl, rfl, rfl⟩⟩

/-- C4 witness: the recurrence instantiated at a two-step segment. -/
theorem fillModel_step_recurrence_witness :
    0 < tpFill.epoch_size ∧ 0 + 1 < tpFill.epoch_size ∧
    (fillModel libQ gHalf tpFill).w1.getD (0+1) (fun _ _ => 0) =
      (genStep libQ gHalf tpFill
        (GenState.mk ((fillModel libQ gHalf tpFill).w1.getD 0 (fun _ _ => 0))
          ((fillModel libQ gHalf tpFill).w2.getD 0 (fun _ _ => 0))
          ((fillModel libQ gHalf tpFill).xHits.getD 0 (fun _ => 0))
          (0 * (tpFill.cyclesPerOneStepFwdOfEpoch * tpFill.batch_size)))).w1 :=
  ⟨by decide, by decide,
    ((fillModel_step_recurrence libQ gHalf tpFill).2 0 (by decide)).1⟩

theorem dropWhile_eq_self_of_takeWhile_nil {α : Type} (p : α → Bool) (l : List α)
    (h : l.takeWhile p = []) : l.dropWhile p = l := by
  cases l with
  | nil => rfl
  | cons y ys =>
    by_cases hy : p y
    · rw [List.takeWhile_cons_of_pos hy] at h
      exact absurd h (by simp)
    · rw [List.dropWhile_cons_of_neg hy]

/-- The `tp_ix` scan of `XOR_model.deleteBefore`: dropping everything
before the last prefix element satisfying `p` leaves that element followed
by the suffix where `p` first fails. -/
theorem drop_takeWhile_pred {α : Type} (p : α → Bool) (l : List α)
    (h : l.takeWhile p ≠ []) :
    ∃ a, (l.takeWhile p).getLast? = some a ∧
      l.drop ((l.takeWhile p).length - 1) = a :: l.dropWhile p := by
  induction l with
  | nil => exact absurd rfl h
  | cons x xs ih =>
    by_cases hx : p x
    · rw [List.takeWhile_cons_of_pos hx, List.dropWhile_cons_of_pos hx]
      by_cases hxs : xs.takeWhile p = []
      · have hd : xs.dropWhile p = xs := dropWhile_eq_self_of_takeWhile_nil p xs hxs
        exact ⟨x, by simp [hxs], by simp [hxs, hd]⟩
      · obtain ⟨a, ha1, ha2⟩ := ih hxs
        obtain ⟨b, tw', hbt⟩ := List.exists_cons_of_ne_nil hxs
        have hpos : 0 < (xs.takeWhile p).length := List.length_pos.mpr hxs
        have hlen : (x :: xs.takeWhile p).length - 1 = ((xs.takeWhile p).length - 1) + 1 := by
          simp only [List.length_cons]
          omega
        refine ⟨a, ?_, ?_⟩
        · rw [hbt, List.getLast?_cons_cons, ← hbt]
          exact ha1
        · rw [hlen, List.drop_succ_cons, ha2]
    · rw [List.takeWhile_cons_of_neg hx] at h
      exact absurd rfl h

/-- In a strictly increasing Turning Point list, every element of the
suffix where `index <= ix` first fails has `index > ix`. -/
theorem mem_dropWhile_gt (ix : ℤ) (l : List XOR_Slice)
    (hs : List.Pairwise (· < ·) (l.map (·.index))) :
    ∀ tp ∈ l.dropWhile (fun tp => tp.index ≤ ix), ix < tp.index := by
  induction l with
  | nil => simp
  | cons x xs ih =>
    rw [List.map_cons, List.pairwise_cons] at hs
    by_cases hx : x.index ≤ ix
    · rw [List.dropWhile_cons_of_pos (by simpa using hx)]
      exact ih hs.2
    · rw [List.dropWhile_cons_of_neg (by simpa using hx)]
      intro tp htp
      rcases List.mem_cons.mp htp with h | h
      · subst h; omega
      · have := hs.1 tp.index (List.mem_map_of_mem (·.index) h)
        omega

/-- C8: on a well-formed controller (first Turning Point at index 0,
strictly increasing indices, aligned array lengths) and a valid position
`ix`, `deleteBefore(ix)` drops all steps before `ix` and all Turning
Points before the effective one, renumbers every retained index by
subtracting `ix` with the new first forced to 0, rebases the hit counters
by subtracting the counts present at the new position 0 (which therefore
reads zero), and afterwards querying position 0 yields the original
position-`ix` effective weights. -/
theorem deleteBefore_spec (M : XOR_model) (ix : ℤ)
    (hhead : (M.tps.map (·.index)).head? = some 0)
    (hsorted : List.Pairwise (· < ·) (M.tps.map (·.index)))
    (hix : 0 ≤ ix) (hix2 : ix < (M.count : ℤ))
    (hlen : M.arr.xHits.length = M.count) :
    (M.deleteBefore ix).arr.w1 = M.arr.w1.drop ix.toNat ∧
    (M.deleteBefore ix).arr.xHits =
      (M.arr.xHits.drop ix.toNat).map
        (fun h c => h c - (M.arr.xHits.getD ix.toNat (fun _ => 0)) c) ∧
    (M.deleteBefore ix).arr.xHits.getD 0 (fun _ => 1) = (fun _ => 0) ∧
    (M.deleteBefore ix).tps.map (·.index) =
      0 :: ((M.tps.dropWhile (fun tp => tp.index ≤ ix)).map (fun tp => tp.index - ix)) ∧
    ((M.deleteBefore ix).setPosSlice 0).map (·.w1) =
      some (M.arr.w1.getD ix.toNat (fun _ _ => 0)) := by
  have hixc : min (max 0 ix) ((M.count : ℤ) - 1) = ix := by omega
  have hixc' : (min (max 0 ix) ((M.arr.count : ℤ) - 1)).toNat = ix.toNat := by
    rw [show (M.arr.count : ℤ) = (M.count : ℤ) from rfl, hixc]
  have harr : (M.deleteBefore ix).arr = M.arr.deleteBefore ix := by
    show (M.arr.deleteBefore (min (max 0 ix) ((M.count : ℤ) - 1))) = M.arr.deleteBefore ix
    rw [hixc]
  have haw1 : (M.arr.deleteBefore ix).w1 = M.arr.w1.drop ix.toNat := by
    show M.arr.w1.drop (min (max 0 ix) ((M.arr.count : ℤ) - 1)).toNat = _
    rw [hixc']
  have hahits : (M.arr.deleteBefore ix).xHits =
      (M.arr.xHits.drop ix.toNat).map
        (fun h c => h c - (M.arr.xHits.getD ix.toNat (fun _ => 0)) c) := by
    show (M.arr.xHits.drop (min (max 0 ix) ((M.arr.count : ℤ) - 1)).toNat).map
      (fun h c => h c -
        (M.arr.xHits.getD (min (max 0 ix) ((M.arr.count : ℤ) - 1)).toNat (fun _ => 0)) c) = _
    rw [hixc']
  obtain ⟨t0, rest, hM⟩ : ∃ t0 rest, M.tps = t0 :: rest := by
    cases hM : M.tps with
    | nil => rw [hM] at hhead; simp at hhead
    | cons a b => exact ⟨a, b, rfl⟩
  have ht0 : t0.index = 0 := by
    rw [hM] at hhead
    simpa using hhead
  have htw : M.tps.takeWhile (fun tp => tp.index ≤ ix) ≠ [] := by
    rw [hM, List.takeWhile_cons_of_pos (by simp [ht0]; omega)]
    simp
  obtain ⟨lastTW, hlast, hdrop⟩ := drop_takeWhile_pred _ M.tps htw
  have hgt := mem_dropWhile_gt ix M.tps hsorted
  have hstruct : ∃ h0 : XOR_Slice, h0.index = 0 ∧
      (M.deleteBefore ix).tps =
        h0 :: (M.tps.dropWhile (fun tp => tp.index ≤ ix)).map
          (fun tp => { tp with index := tp.index - ix }) := by
    show ∃ h0 : XOR_Slice, h0.index = 0 ∧
      (List.modifyHead _ (List.modifyHead _
        ((M.tps.drop ((M.tps.takeWhile
          (fun tp => tp.index ≤ min (max 0 ix) ((M.count : ℤ) - 1))).length - 1)).map _))) =
        h0 :: _
    rw [hixc, hdrop, List.map_cons, List.modifyHead_cons, List.modifyHead_cons]
    exact ⟨_, rfl, rfl⟩
  obtain ⟨h0, hh0, htps⟩ := hstruct
  have hnlt : ix.toNat < M.arr.xHits.length := by
    rw [hlen]
    omega
  have hw1lt : ix.toNat < M.arr.w1.length := by
    have : M.arr.w1.length = M.count := rfl
    omega
  refine ⟨?_, ?_, ?_, ?_, ?_⟩
  · rw [harr, haw1]
  · rw [harr, hahits]
  · rw [harr, hahits]
    rw [List.getD_eq_getElem?_getD, List.getElem?_map, List.getElem?_drop,
      List.getElem?_eq_getElem (by omega), List.getD_eq_getElem?_getD,
      List.getElem?_eq_getElem hnlt]
    funext c
    simp
  · rw [htps, List.map_cons, hh0, List.map_map]
    rfl
  · unfold XOR_model.setPosSlice
    simp only [Nat.cast_zero]
    rw [htps, List.reverse_cons, List.find?_append]
    have hfnone : ((M.tps.dropWhile (fun tp => tp.index ≤ ix)).map
        (fun tp => { tp with index := tp.index - ix })).reverse.find?
        (fun tp => tp.index ≤ (0 : ℤ)) = Option.none := by
      rw [List.find?_eq_none]
      intro x hx
      rw [List.mem_reverse, List.mem_map] at hx
      obtain ⟨tp, htp, hxeq⟩ := hx
      have := hgt tp htp
      subst hxeq
      simp only [decide_eq_true_eq]
      omega
    rw [hfnone]
    have hfh0 : List.find? (fun tp => tp.index ≤ (0 : ℤ)) [h0] = some h0 := by
      simp [List.find?, hh0]
    rw [hfh0]
    show some ((M.deleteBefore ix).arr.w1.getD 0 (fun _ _ => 0)) = _
    rw [harr, haw1]
    have : (M.arr.w1.drop ix.toNat).getD 0 (fun _ _ => 0) =
        M.arr.w1.getD ix.toNat (fun _ _ => 0) := by
      rw [List.getD_eq_getElem?_getD, List.getElem?_drop, List.getD_eq_getElem?_getD]
      simp
    rw [this]

/-- C8 witness: `deleteBefore(5)` on the `[0, 5, 12]` / length-20 scenario
renumbers the Turning Points to `[0, 7]` and makes position 0 serve the
original position-5 weights. -/
theorem deleteBefore_spec_witness :
    (mScenario.deleteBefore 5).tps.map (·.index) =
      0 :: ((mScenario.tps.dropWhile (fun tp => tp.index ≤ (5:ℤ))).map
        (fun tp => tp.index - (5:ℤ))) ∧
    ((mScenario.deleteBefore 5).setPosSlice 0).map (·.w1) =
      some (mScenario.arr.w1.getD (5:ℤ).toNat (fun _ _ => 0)) :=
  ⟨(deleteBefore_spec mScenario 5 (by decide) (by decide) (by decide) (by decide)
      (by decide)).2.2.2.1,
   (deleteBefore_spec mScenario 5 (by decide) (by decide) (by decide) (by decide)
      (by decide)).2.2.2.2⟩

end NNXOR
